import Mathlib

/-
Shallow embedding of ringstone_translate.py.

The script is a linear pipeline over module-level mutable state
(translation_log, total_tokens_used).  We embed that state as an explicit
TState value threaded through the functions, and the three external
services (LLM completion endpoint, source-control host, SMTP transport)
as a pure oracle record Api.  Observable side effects (console prints,
file creation and update on the remote branch, pull-request creation,
CSV write, email attempt) are recorded in an event trace.  An uncaught
Python exception is embedded as an Except.error carrying the abort
message together with the state and events accumulated so far.
-/

namespace Ringstone

/-- Auxiliary for the Python str.split(",") on the character list:
cut at every comma, keeping empty pieces. -/
def splitCommaGo : List Char → List Char → List String
  | [], acc => [⟨acc.reverse⟩]
  | c :: rest, acc =>
      if c = ',' then ⟨acc.reverse⟩ :: splitCommaGo rest []
      else splitCommaGo rest (c :: acc)

/-- Target language list obtained by comma-splitting the TRANSLATE_LANGS
environment string with the Python str.split(",") (source line 30); the
split can yield duplicates. -/
def TARGET_LANGS_of (s : String) : List String := splitCommaGo s.data []

/-- The Python str.strip(): drop whitespace from both ends. -/
def strip (s : String) : String :=
  ⟨((s.data.dropWhile Char.isWhitespace).reverse.dropWhile Char.isWhitespace).reverse⟩

/-- Auxiliary for the Python len(s.split()): count the maximal
non-whitespace runs; the flag says whether a run is open. -/
def wcGo : List Char → Bool → Nat
  | [], _ => 0
  | c :: rest, inWord =>
      if c.isWhitespace then wcGo rest false
      else (if inWord then 0 else 1) + wcGo rest true

/-- Source line 29. -/
def SOURCE_LANG : String := "English"

/-- Source line 31. -/
def LOCALE_PATH : String := "locales/en.json"

/-- Source line 32. -/
def BRANCH_NAME : String := "translations-auto"

/-- Source line 36. -/
def CSV_LOG_FILE : String := "translation_report.csv"

/-- One element of a translation log sequence: the tuple
(key, value, translated, lang_tokens) appended at source line 65.
cumTokens is the fourth component. -/
structure Entry where
  key : String
  original : String
  translated : String
  cumTokens : Nat
deriving DecidableEq

/-- The module-level mutable state of the script: translation_log, a dict
from language code to list of entries kept in insertion order (embedded
as an association list), and total_tokens_used. -/
structure TState where
  translation_log : List (String × List Entry)
  total_tokens_used : Nat
deriving DecidableEq

/-- The state at process start: empty log and zero token counter
(source lines 33 and 34). -/
def initState : TState := ⟨[], 0⟩

/-- The three external services as pure oracles.  complete maps a prompt
string to the completion content together with response.usage.total_tokens.
mainBranch stands for the Github auth / get_repo / get_branch sequence and
yields the main tip sha.  createRef, createFile and updateFile yield either
success or the message of the exception they raise.  catalog stands for
get_contents(LOCALE_PATH) followed by json.loads and yields the key-value
pairs of the source object in iteration order.  getSha is the revision
marker of a path on the working branch.  openPRTotalCount is the
totalCount of the open-pull-request query.  smtp is the outcome of the
whole SMTP session. -/
structure Api where
  complete : String → String × Nat
  mainBranch : Except String String
  createRef : Except String Unit
  catalog : Except String (List (String × String))
  createFile : String → Except String Unit
  updateFile : String → Except String Unit
  getSha : String → String
  openPRTotalCount : Nat
  smtp : Except String Unit

/-- Observable events of a run, in order of occurrence. -/
inductive Ev where
  | printed (s : String)
  | createdRef (branch : String)
  | createdFile (path msg : String) (content : List (String × String)) (branch : String)
  | updatedFile (path msg : String) (content : List (String × String)) (sha branch : String)
  | createdPull (title body head base : String)
  | wroteCsv (rows : List (List String))
deriving DecidableEq

/-- State and events at the moment an uncaught exception aborts the run. -/
structure Abort where
  msg : String
  st : TState
  events : List Ev
deriving DecidableEq

/-- Final state of a run that terminates normally: the module state, the
content of the CSV report file if it was written, and the event trace. -/
structure RunOut where
  st : TState
  csvFile : Option (List (List String))
  events : List Ev
deriving DecidableEq

/-- build_prompt, source lines 38 to 46: an f-string around the text and
the target language. -/
def build_prompt (text target_lang : String) : String :=
  "\nTranslate the following UI string from English to " ++ target_lang ++
  ".\nKeep it concise, clear, and maintain a friendly and modern tone.\n\n\"" ++
  text ++ "\"\n\nOnly return the translated text, no commentary.\n"

/-- Word count in the sense of the Python len(s.split()) with no argument:
the number of maximal whitespace-separated runs (used at source line 64). -/
def wordCount (s : String) : Nat := wcGo s.data false

/-- translate_text, source lines 48 to 56: call the completion endpoint on
the built prompt, add the reported usage to total_tokens_used, return the
stripped content. -/
def translate_text (api : Api) (text target_lang : String) (st : TState) :
    String × TState :=
  (strip (api.complete (build_prompt text target_lang)).1,
   { st with total_tokens_used :=
       st.total_tokens_used + (api.complete (build_prompt text target_lang)).2 })

/-- translation_log.setdefault(lang, []).append(e), source line 65: append
e to the sequence of lang, inserting lang at the end of the dict when absent. -/
def logAppend (log : List (String × List Entry)) (lang : String) (e : Entry) :
    List (String × List Entry) :=
  match log with
  | [] => [(lang, [e])]
  | p :: rest =>
      if p.1 = lang then (p.1, p.2 ++ [e]) :: rest
      else p :: logAppend rest lang e

/-- The entry sequence of a language in the log (empty when absent). -/
def logGet (log : List (String × List Entry)) (lang : String) : List Entry :=
  match log with
  | [] => []
  | p :: rest => if p.1 = lang then p.2 else logGet rest lang

/-- The loop body of translate_locale, source lines 59 to 66, with the
running lang_tokens total made explicit. -/
def translateLoop (api : Api) (target_lang : String) :
    List (String × String) → Nat → TState → List (String × String) × TState
  | [], _, st => ([], st)
  | (key, value) :: rest, lang_tokens, st =>
      let r := translate_text api value target_lang st
      let lt := lang_tokens + wordCount value + wordCount r.1
      let st2 : TState :=
        { r.2 with translation_log :=
            logAppend r.2.translation_log target_lang ⟨key, value, r.1, lt⟩ }
      let q := translateLoop api target_lang rest lt st2
      ((key, r.1) :: q.1, q.2)

/-- translate_locale, source lines 58 to 66: lang_tokens starts at 0; the
source dict comes from a JSON object so its keys are pairwise distinct. -/
def translate_locale (api : Api) (source : List (String × String))
    (target_lang : String) (st : TState) : List (String × String) × TState :=
  translateLoop api target_lang source 0 st

/-- The entries translate_locale appends for a language, as a pure function
of the oracle and the catalog, with the running total started at acc. -/
def expectedEntries (api : Api) (target_lang : String) :
    List (String × String) → Nat → List Entry
  | [], _ => []
  | (key, value) :: rest, acc =>
      let t := strip (api.complete (build_prompt value target_lang)).1
      ⟨key, value, t, acc + wordCount value + wordCount t⟩ ::
        expectedEntries api target_lang rest (acc + wordCount value + wordCount t)

/-- The translations mapping translate_locale returns, as a pure function. -/
def transOf (api : Api) (target_lang : String) (source : List (String × String)) :
    List (String × String) :=
  source.map (fun kv => (kv.1, strip (api.complete (build_prompt kv.2 target_lang)).1))

/-- The usage the completion endpoint reports for the calls of one
translate_locale run, summed. -/
def callCosts (api : Api) (target_lang : String)
    (source : List (String × String)) : Nat :=
  (source.map (fun kv => (api.complete (build_prompt kv.2 target_lang)).2)).sum

/-- One data row of the CSV report (source line 74). -/
def csvRow (lang : String) (e : Entry) : List String :=
  [lang, e.key, e.original, e.translated]

/-- write_csv_log, source lines 68 to 74: header row, then one row per
entry, languages in log insertion order, entries in sequence order. -/
def write_csv_log (log : List (String × List Entry)) : List (List String) :=
  ["Language", "Key", "Original Text", "Translated Text"] ::
    (log.map (fun p => p.2.map (csvRow p.1))).flatten

/-- Number of entries in the whole log. -/
def totalEntries (log : List (String × List Entry)) : Nat :=
  (log.map (fun p => p.2.length)).sum

/-- entries[-1][3] if entries else 0, source line 93. -/
def lang_total_tokens (entries : List Entry) : Nat :=
  match entries.getLast? with
  | some e => e.cumTokens
  | none => 0

/-- The fixed per-token rate 0.00001 USD (source lines 82 and 94),
embedded as an exact rational. -/
def TOKEN_RATE : ℚ := 0.00001

/-- One per-language section of the HTML report (source lines 92 to 100). -/
structure LangSection where
  lang : String
  tokens : Nat
  cost : ℚ
  rows : List (String × String × String)
deriving DecidableEq

/-- The numeric and tabular content of the HTML report
(source lines 82 to 100). -/
structure EmailReport where
  modelUsed : String
  totalTokens : Nat
  totalCost : ℚ
  sections : List LangSection
deriving DecidableEq

/-- The report send_translation_email renders: total tokens and cost from
the counter, then one section per log language with the cumulative count
of its last entry (or 0) and that count times the rate. -/
def buildReport (modelUsed : String) (st : TState) : EmailReport :=
  { modelUsed := modelUsed
    totalTokens := st.total_tokens_used
    totalCost := (st.total_tokens_used : ℚ) * TOKEN_RATE
    sections := st.translation_log.map (fun p =>
      { lang := p.1
        tokens := lang_total_tokens p.2
        cost := (lang_total_tokens p.2 : ℚ) * TOKEN_RATE
        rows := p.2.map (fun e => (e.key, e.original, e.translated)) }) }

/-- send_translation_email, source lines 76 to 121: write the CSV report
(line 106, before the try block), then run the SMTP session inside
try/except, printing a success or failure line; both outcomes return
normally. -/
def send_translation_email (api : Api) (st : TState) (evs : List Ev) : RunOut :=
  let rows := write_csv_log st.translation_log
  match api.smtp with
  | .ok _ =>
      ⟨st, some rows, evs ++ [Ev.wroteCsv rows, Ev.printed "✅ Email sent"]⟩
  | .error e =>
      ⟨st, some rows, evs ++ [Ev.wroteCsv rows, Ev.printed ("❌ Email failed: " ++ e)]⟩

/-- The output path for a language, source line 139. -/
def langPath (lang : String) : String := "locales/" ++ lang ++ ".json"

/-- The per-language loop of push_translations, source lines 136 to 158:
translate, then try create_file; on any creation error fall back to
update_file with the sha fetched from the branch; an error raised by
update_file itself is uncaught and aborts. -/
def publishLoop (api : Api) (source : List (String × String)) :
    List String → TState → List Ev → Except Abort (TState × List Ev)
  | [], st, evs => .ok (st, evs)
  | lang :: rest, st, evs =>
      let evs0 := evs ++ [Ev.printed ("Translating to " ++ lang ++ "...")]
      let p := translate_locale api source lang st
      match api.createFile (langPath lang) with
      | .ok _ =>
          publishLoop api source rest p.2
            (evs0 ++ [Ev.createdFile (langPath lang)
              ("Add " ++ lang ++ " translation") p.1 BRANCH_NAME])
      | .error _ =>
          match api.updateFile (langPath lang) with
          | .ok _ =>
              publishLoop api source rest p.2
                (evs0 ++ [Ev.updatedFile (langPath lang)
                  ("Update " ++ lang ++ " translation") p.1
                  (api.getSha (langPath lang)) BRANCH_NAME])
          | .error e => .error ⟨e, p.2, evs0⟩

/-- Events of the branch-creation step, source lines 128 to 131: the bare
except prints the already-exists line on any error raised by
create_git_ref. -/
def branchEvents (api : Api) : List Ev :=
  match api.createRef with
  | .ok _ => [Ev.createdRef BRANCH_NAME]
  | .error _ => [Ev.printed ("Branch " ++ BRANCH_NAME ++ " already exists")]

/-- Events of the pull-request step, source lines 160 to 169: create the
pull request with the fixed title and body only when the open-PR query
count is zero, otherwise print the skip line. -/
def prEvents (api : Api) (evs2 : List Ev) : List Ev :=
  if api.openPRTotalCount = 0 then
    evs2 ++ [Ev.createdPull "Automated translations via RingStone MVP Demo"
      "This PR was auto-generated using LLM-based translation."
      BRANCH_NAME "main"]
  else evs2 ++ [Ev.printed "⚠️ PR already exists. Skipping PR creation."]

/-- push_translations, source lines 123 to 171: resolve repo and main
branch (uncaught on error), create the working branch inside a bare
try/except that prints the already-exists line on any error, load the
catalog (uncaught on error), run the per-language loop, create the pull
request only when the open-PR query count is zero, then always call
send_translation_email. -/
def push_translations (api : Api) (target_langs : List String) :
    Except Abort RunOut :=
  match api.mainBranch with
  | .error e => .error ⟨e, initState, []⟩
  | .ok _sha =>
    match api.catalog with
    | .error e => .error ⟨e, initState, branchEvents api⟩
    | .ok source =>
      match publishLoop api source target_langs initState (branchEvents api) with
      | .error a => .error a
      | .ok (st, evs2) => .ok (send_translation_email api st (prEvents api evs2))

/-- Whether an Except value is a success. -/
def exceptOk {ε α : Type _} : Except ε α → Bool
  | .ok _ => true
  | .error _ => false

/-- The abort message of a run, none when it terminated normally. -/
def abortMsg : Except Abort RunOut → Option String
  | .error a => some a.msg
  | .ok _ => none

/-- The module state at the end of a run, aborted or not. -/
def resultState : Except Abort RunOut → TState
  | .error a => a.st
  | .ok o => o.st

/-- The event trace of a run, aborted or not. -/
def resultEvents : Except Abort RunOut → List Ev
  | .error a => a.events
  | .ok o => o.events

/-- The CSV report content of a run, none when the run aborted before the
report step. -/
def resultCsv : Except Abort RunOut → Option (List (List String))
  | .error _ => none
  | .ok o => o.csvFile

/-- Whether an event is an update of the given path. -/
def isUpdFor (p : String) : Ev → Bool
  | Ev.updatedFile q _ _ _ _ => q == p
  | _ => false

/-- Whether an event is a file creation. -/
def isCreateEv : Ev → Bool
  | Ev.createdFile _ _ _ _ => true
  | _ => false

/-- Whether an event is a pull-request creation. -/
def isPullEv : Ev → Bool
  | Ev.createdPull _ _ _ _ => true
  | _ => false

/-- Sum over a catalog of the word-count proxy
(word count of original + word count of translated). -/
def wcSum (api : Api) (target_lang : String) (source : List (String × String)) : Nat :=
  (source.map (fun kv =>
    wordCount kv.2 + wordCount (strip (api.complete (build_prompt kv.2 target_lang)).1))).sum

/-- The pure state transformer of the per-language loop: run
translate_locale once per listed language, in order. -/
def runLangs (api : Api) (source : List (String × String)) :
    List String → TState → TState
  | [], st => st
  | lang :: rest, st => runLangs api source rest (translate_locale api source lang st).2

/-- A two-key demonstration catalog. -/
def demoCatalog : List (String × String) :=
  [("greeting", "Hello world"), ("farewell", "Good bye")]

/-- An oracle on which every external call succeeds. -/
def okApi : Api :=
  { complete := fun _ => (" Hola mundo ", 7)
    mainBranch := .ok "mainsha"
    createRef := .ok ()
    catalog := .ok demoCatalog
    createFile := fun _ => .ok ()
    updateFile := fun _ => .ok ()
    getSha := fun _ => "filesha"
    openPRTotalCount := 0
    smtp := .ok () }

/-- An oracle where the SMTP session raises an authentication error and
everything else succeeds. -/
def smtpFailApi : Api :=
  { okApi with smtp := .error "auth error" }

/-- An oracle for a rerun state: the working branch, the output files and
an open pull request already exist, so create_git_ref and create_file
raise and update_file succeeds. -/
def rerunApi : Api :=
  { okApi with
    createRef := .error "Reference already exists"
    createFile := fun _ => .error "422 file exists"
    openPRTotalCount := 1 }

/-- An oracle where file creation fails with an error that is not
file-already-exists and the fallback update also raises. -/
def updFailApi : Api :=
  { okApi with
    createFile := fun _ => .error "403 forbidden"
    updateFile := fun _ => .error "update failed" }

/-- An oracle where create_git_ref raises a permission error that is not
branch-already-exists, and everything else succeeds. -/
def permApi : Api :=
  { okApi with createRef := .error "permission denied" }

/-- An oracle where resolving the repository fails. -/
def mainFailApi : Api :=
  { okApi with mainBranch := .error "bad credentials" }

/-- An oracle where loading the catalog fails. -/
def catFailApi : Api :=
  { okApi with catalog := .error "404 locales/en.json" }

theorem logGet_logAppend_same (log : List (String × List Entry)) (lang : String)
    (e : Entry) : logGet (logAppend log lang e) lang = logGet log lang ++ [e] := by
  induction log with
  | nil => simp [logAppend, logGet]
  | cons p rest ih =>
      by_cases h : p.1 = lang
      · simp [logAppend, logGet, h]
      · simp [logAppend, logGet, h, ih]

theorem logGet_logAppend_other (log : List (String × List Entry)) (lang l : String)
    (e : Entry) (h : ¬ l = lang) :
    logGet (logAppend log lang e) l = logGet log l := by
  have h2 : ¬ lang = l := fun hh => h hh.symm
  induction log with
  | nil => simp [logAppend, logGet, h2]
  | cons p rest ih =>
      by_cases hp : p.1 = lang
      · simp [logAppend, logGet, hp, h2]
      · simp [logAppend, logGet, hp, ih]

theorem totalEntries_logAppend (log : List (String × List Entry)) (lang : String)
    (e : Entry) : totalEntries (logAppend log lang e) = totalEntries log + 1 := by
  induction log with
  | nil => simp [logAppend, totalEntries]
  | cons p rest ih =>
      by_cases h : p.1 = lang
      · simp [logAppend, totalEntries, h]; omega
      · simp [logAppend, totalEntries, h] at *; omega

theorem translate_text_log (api : Api) (text target_lang : String) (st : TState) :
    (translate_text api text target_lang st).2.translation_log = st.translation_log := rfl

theorem translate_text_tokens (api : Api) (text target_lang : String) (st : TState) :
    (translate_text api text target_lang st).2.total_tokens_used
      = st.total_tokens_used + (api.complete (build_prompt text target_lang)).2 := rfl

theorem translateLoop_fst (api : Api) (target_lang : String)
    (source : List (String × String)) :
    ∀ (n : Nat) (st : TState),
      (translateLoop api target_lang source n st).1 = transOf api target_lang source := by
  induction source with
  | nil => intro n st; simp [translateLoop, transOf]
  | cons kv rest ih =>
      intro n st
      obtain ⟨key, value⟩ := kv
      simp [translateLoop, transOf, translate_text, ih]

theorem translateLoop_log_same (api : Api) (target_lang : String)
    (source : List (String × String)) :
    ∀ (n : Nat) (st : TState),
      logGet (translateLoop api target_lang source n st).2.translation_log target_lang
        = logGet st.translation_log target_lang ++ expectedEntries api target_lang source n := by
  induction source with
  | nil => intro n st; simp [translateLoop, expectedEntries]
  | cons kv rest ih =>
      intro n st
      obtain ⟨key, value⟩ := kv
      simp [translateLoop, expectedEntries, ih, translate_text, logGet_logAppend_same]

theorem translateLoop_log_other (api : Api) (target_lang l : String)
    (source : List (String × String)) (h : ¬ l = target_lang) :
    ∀ (n : Nat) (st : TState),
      logGet (translateLoop api target_lang source n st).2.translation_log l
        = logGet st.translation_log l := by
  induction source with
  | nil => intro n st; simp [translateLoop]
  | cons kv rest ih =>
      intro n st
      obtain ⟨key, value⟩ := kv
      simp [translateLoop, ih, translate_text, logGet_logAppend_other _ _ _ _ h]

theorem translateLoop_tokens (api : Api) (target_lang : String)
    (source : List (String × String)) :
    ∀ (n : Nat) (st : TState),
      (translateLoop api target_lang source n st).2.total_tokens_used
        = st.total_tokens_used + callCosts api target_lang source := by
  induction source with
  | nil => intro n st; simp [translateLoop, callCosts]
  | cons kv rest ih =>
      intro n st
      obtain ⟨key, value⟩ := kv
      simp [translateLoop, callCosts, ih, translate_text]
      simp [callCosts] at ih
      omega

theorem translateLoop_totalEntries (api : Api) (target_lang : String)
    (source : List (String × String)) :
    ∀ (n : Nat) (st : TState),
      totalEntries (translateLoop api target_lang source n st).2.translation_log
        = totalEntries st.translation_log + source.length := by
  induction source with
  | nil => intro n st; simp [translateLoop]
  | cons kv rest ih =>
      intro n st
      obtain ⟨key, value⟩ := kv
      simp [translateLoop, ih, translate_text, totalEntries_logAppend]
      omega

theorem expectedEntries_keys (api : Api) (target_lang : String)
    (source : List (String × String)) :
    ∀ (acc : Nat),
      (expectedEntries api target_lang source acc).map Entry.key
        = source.map Prod.fst := by
  induction source with
  | nil => intro acc; simp [expectedEntries]
  | cons kv rest ih =>
      intro acc
      obtain ⟨key, value⟩ := kv
      simp [expectedEntries, ih]

theorem expectedEntries_length (api : Api) (target_lang : String)
    (source : List (String × String)) :
    ∀ (acc : Nat),
      (expectedEntries api target_lang source acc).length = source.length := by
  induction source with
  | nil => intro acc; simp [expectedEntries]
  | cons kv rest ih =>
      intro acc
      obtain ⟨key, value⟩ := kv
      simp [expectedEntries, ih]

theorem expectedEntries_cum (api : Api) (target_lang : String)
    (source : List (String × String)) :
    ∀ (acc : Nat) (i : Nat) (h : i < (expectedEntries api target_lang source acc).length),
      ((expectedEntries api target_lang source acc).get ⟨i, h⟩).cumTokens
        = acc + (((expectedEntries api target_lang source acc).take (i + 1)).map
            (fun e => wordCount e.original + wordCount e.translated)).sum := by
  induction source with
  | nil => intro acc i h; simp [expectedEntries] at h
  | cons kv rest ih =>
      intro acc i h
      obtain ⟨key, value⟩ := kv
      cases i with
      | zero => simp [expectedEntries]; omega
      | succ j =>
          simp only [expectedEntries, List.get_cons_succ, List.take_succ_cons,
            List.map_cons, List.sum_cons] at h ⊢
          rw [ih]
          omega

theorem lang_total_tokens_cons_of_ne (e : Entry) (l : List Entry) (h : ¬ l = []) :
    lang_total_tokens (e :: l) = lang_total_tokens l := by
  obtain ⟨e1, l2, rfl⟩ := List.exists_cons_of_ne_nil h
  simp [lang_total_tokens, List.getLast?_cons_cons]

theorem expectedEntries_ne_nil (api : Api) (target_lang : String)
    (source : List (String × String)) (acc : Nat) (h : ¬ source = []) :
    ¬ expectedEntries api target_lang source acc = [] := by
  intro hh
  apply h
  have hl := expectedEntries_length api target_lang source acc
  rw [hh] at hl
  exact List.length_eq_zero.mp hl.symm

theorem lang_total_tokens_expected (api : Api) (target_lang : String) :
    ∀ (source : List (String × String)) (acc : Nat), ¬ source = [] →
      lang_total_tokens (expectedEntries api target_lang source acc)
        = acc + wcSum api target_lang source := by
  intro source
  induction source with
  | nil => intro acc h; exact absurd rfl h
  | cons kv rest ih =>
      intro acc _h
      obtain ⟨key, value⟩ := kv
      by_cases hr : rest = []
      · subst hr; simp [expectedEntries, lang_total_tokens, wcSum]; omega
      · simp only [expectedEntries]
        rw [lang_total_tokens_cons_of_ne _ _
          (expectedEntries_ne_nil api target_lang rest _ hr)]
        rw [ih _ hr]
        simp [wcSum]
        omega

theorem runLangs_tokens (api : Api) (source : List (String × String)) :
    ∀ (langs : List String) (st : TState),
      (runLangs api source langs st).total_tokens_used
        = st.total_tokens_used + (langs.map (fun l => callCosts api l source)).sum := by
  intro langs
  induction langs with
  | nil => intro st; simp [runLangs]
  | cons lang rest ih =>
      intro st
      simp only [runLangs, translate_locale, List.map_cons, List.sum_cons]
      rw [ih, translateLoop_tokens]
      omega

theorem runLangs_totalEntries (api : Api) (source : List (String × String)) :
    ∀ (langs : List String) (st : TState),
      totalEntries (runLangs api source langs st).translation_log
        = totalEntries st.translation_log + langs.length * source.length := by
  intro langs
  induction langs with
  | nil => intro st; simp [runLangs]
  | cons lang rest ih =>
      intro st
      simp only [runLangs, translate_locale, List.length_cons]
      rw [ih, translateLoop_totalEntries, Nat.succ_mul]
      omega

theorem runLangs_log_not_mem (api : Api) (source : List (String × String)) :
    ∀ (langs : List String) (lang : String), lang ∉ langs → ∀ (st : TState),
      logGet (runLangs api source langs st).translation_log lang
        = logGet st.translation_log lang := by
  intro langs
  induction langs with
  | nil => intro lang _ st; simp [runLangs]
  | cons l rest ih =>
      intro lang h st
      have h1 : ¬ lang = l := fun hh => h (by simp [hh])
      have h2 : lang ∉ rest := fun hh => h (by simp [hh])
      simp only [runLangs, translate_locale]
      rw [ih lang h2, translateLoop_log_other api l lang source h1]

theorem runLangs_log_mem (api : Api) (source : List (String × String)) :
    ∀ (langs : List String), langs.Nodup → ∀ lang ∈ langs, ∀ (st : TState),
      logGet (runLangs api source langs st).translation_log lang
        = logGet st.translation_log lang ++ expectedEntries api lang source 0 := by
  intro langs
  induction langs with
  | nil => intro _ lang h; cases h
  | cons l rest ih =>
      intro hnd lang hmem st
      rw [List.nodup_cons] at hnd
      rcases List.mem_cons.mp hmem with h1 | h1
      · subst h1
        simp only [runLangs]
        rw [runLangs_log_not_mem api source rest lang hnd.1]
        exact translateLoop_log_same api lang source 0 st
      · have hne : ¬ lang = l := fun hh => hnd.1 (hh ▸ h1)
        simp only [runLangs, translate_locale]
        rw [ih hnd.2 lang h1, translateLoop_log_other api l lang source hne]

theorem publishLoop_state (api : Api) (source : List (String × String)) :
    ∀ (langs : List String) (st : TState) (evs : List Ev) (st2 : TState) (evs2 : List Ev),
      publishLoop api source langs st evs = .ok (st2, evs2) →
      st2 = runLangs api source langs st := by
  intro langs
  induction langs with
  | nil =>
      intro st evs st2 evs2 h
      simp [publishLoop] at h
      simp [runLangs, h.1]
  | cons lang rest ih =>
      intro st evs st2 evs2 h
      simp only [publishLoop] at h
      cases hc : api.createFile (langPath lang) with
      | ok v =>
          rw [hc] at h
          simp only [runLangs]
          exact ih _ _ _ _ h
      | error e1 =>
          rw [hc] at h
          cases hu : api.updateFile (langPath lang) with
          | ok v =>
              rw [hu] at h
              simp only [runLangs]
              exact ih _ _ _ _ h
          | error e2 =>
              rw [hu] at h
              simp at h

theorem publishLoop_events_mono (api : Api) (source : List (String × String)) :
    ∀ (langs : List String) (st : TState) (evs : List Ev) (st2 : TState) (evs2 : List Ev),
      publishLoop api source langs st evs = .ok (st2, evs2) →
      ∀ x ∈ evs, x ∈ evs2 := by
  intro langs
  induction langs with
  | nil =>
      intro st evs st2 evs2 h x hx
      simp [publishLoop] at h
      rw [← h.2]
      exact hx
  | cons lang rest ih =>
      intro st evs st2 evs2 h x hx
      simp only [publishLoop] at h
      cases hc : api.createFile (langPath lang) with
      | ok v =>
          rw [hc] at h
          exact ih _ _ _ _ h x (by simp [hx])
      | error e1 =>
          rw [hc] at h
          cases hu : api.updateFile (langPath lang) with
          | ok v =>
              rw [hu] at h
              exact ih _ _ _ _ h x (by simp [hx])
          | error e2 =>
              rw [hu] at h
              simp at h

theorem langPath_injective : Function.Injective langPath := by
  intro a b h
  have h2 : (("locales/" ++ a) ++ ".json").data = (("locales/" ++ b) ++ ".json").data :=
    congrArg String.data h
  simp only [String.data_append] at h2
  have h3 : a.data = b.data :=
    List.append_cancel_left (List.append_cancel_right h2)
  cases a
  cases b
  simp only at h3
  rw [h3]

theorem publishLoop_ok_of_update (api : Api) (source : List (String × String)) :
    ∀ (langs : List String) (st : TState) (evs : List Ev),
      (∀ p, exceptOk (api.updateFile p) = true) →
      ∃ st2 evs2, publishLoop api source langs st evs = .ok (st2, evs2) ∧
        ∀ lang ∈ langs,
          (exceptOk (api.createFile (langPath lang)) = true →
            Ev.createdFile (langPath lang) ("Add " ++ lang ++ " translation")
              (transOf api lang source) BRANCH_NAME ∈ evs2) ∧
          (exceptOk (api.createFile (langPath lang)) = false →
            Ev.updatedFile (langPath lang) ("Update " ++ lang ++ " translation")
              (transOf api lang source) (api.getSha (langPath lang)) BRANCH_NAME ∈ evs2) := by
  intro langs
  induction langs with
  | nil =>
      intro st evs _hU
      exact ⟨st, evs, by simp [publishLoop], fun l hl => absurd hl (List.not_mem_nil l)⟩
  | cons lang rest ih =>
      intro st evs hU
      have hfst : (translate_locale api source lang st).1 = transOf api lang source :=
        translateLoop_fst api lang source 0 st
      cases hc : api.createFile (langPath lang) with
      | ok v =>
          obtain ⟨st2, evs2, hok, hmem⟩ := ih (translate_locale api source lang st).2
            ((evs ++ [Ev.printed ("Translating to " ++ lang ++ "...")]) ++
              [Ev.createdFile (langPath lang) ("Add " ++ lang ++ " translation")
                (translate_locale api source lang st).1 BRANCH_NAME]) hU
          refine ⟨st2, evs2, ?_, ?_⟩
          · simp only [publishLoop, hc]
            exact hok
          · intro l hl
            rcases List.mem_cons.mp hl with h1 | h1
            · subst h1
              constructor
              · intro _
                have : Ev.createdFile (langPath l) ("Add " ++ l ++ " translation")
                    (transOf api l source) BRANCH_NAME ∈
                    ((evs ++ [Ev.printed ("Translating to " ++ l ++ "...")]) ++
                      [Ev.createdFile (langPath l) ("Add " ++ l ++ " translation")
                        (translate_locale api source l st).1 BRANCH_NAME]) := by
                  rw [hfst]; simp
                exact publishLoop_events_mono api source rest _ _ _ _ hok _ this
              · intro hfalse
                rw [hc] at hfalse
                simp [exceptOk] at hfalse
            · exact hmem l h1
      | error e1 =>
          have hu := hU (langPath lang)
          cases huu : api.updateFile (langPath lang) with
          | error e2 => rw [huu] at hu; simp [exceptOk] at hu
          | ok v =>
              obtain ⟨st2, evs2, hok, hmem⟩ := ih (translate_locale api source lang st).2
                ((evs ++ [Ev.printed ("Translating to " ++ lang ++ "...")]) ++
                  [Ev.updatedFile (langPath lang) ("Update " ++ lang ++ " translation")
                    (translate_locale api source lang st).1
                    (api.getSha (langPath lang)) BRANCH_NAME]) hU
              refine ⟨st2, evs2, ?_, ?_⟩
              · simp only [publishLoop, hc, huu]
                exact hok
              · intro l hl
                rcases List.mem_cons.mp hl with h1 | h1
                · subst h1
                  constructor
                  · intro htrue
                    rw [hc] at htrue
                    simp [exceptOk] at htrue
                  · intro _
                    have : Ev.updatedFile (langPath l) ("Update " ++ l ++ " translation")
                        (transOf api l source) (api.getSha (langPath l)) BRANCH_NAME ∈
                        ((evs ++ [Ev.printed ("Translating to " ++ l ++ "...")]) ++
                          [Ev.updatedFile (langPath l) ("Update " ++ l ++ " translation")
                            (translate_locale api source l st).1
                            (api.getSha (langPath l)) BRANCH_NAME]) := by
                      rw [hfst]; simp
                    exact publishLoop_events_mono api source rest _ _ _ _ hok _ this
                · exact hmem l h1

theorem publishLoop_upd_count (api : Api) (source : List (String × String)) :
    ∀ (langs : List String) (st : TState) (evs : List Ev),
      (∀ p, exceptOk (api.createFile p) = false) →
      (∀ p, exceptOk (api.updateFile p) = true) →
      ∃ st2 evs2, publishLoop api source langs st evs = .ok (st2, evs2) ∧
        (∀ p, (evs2.filter (isUpdFor p)).length
            = (evs.filter (isUpdFor p)).length + (langs.map langPath).count p) ∧
        (evs2.filter isCreateEv).length = (evs.filter isCreateEv).length ∧
        (evs2.filter isPullEv).length = (evs.filter isPullEv).length := by
  intro langs
  induction langs with
  | nil =>
      intro st evs _hC _hU
      exact ⟨st, evs, by simp [publishLoop], fun p => by simp, rfl, rfl⟩
  | cons lang rest ih =>
      intro st evs hC hU
      have hc := hC (langPath lang)
      cases hcc : api.createFile (langPath lang) with
      | ok v => rw [hcc] at hc; simp [exceptOk] at hc
      | error e1 =>
          have hu := hU (langPath lang)
          cases huu : api.updateFile (langPath lang) with
          | error e2 => rw [huu] at hu; simp [exceptOk] at hu
          | ok v =>
              obtain ⟨st2, evs2, hok, hcnt, hcrt, hpl⟩ := ih (translate_locale api source lang st).2
                ((evs ++ [Ev.printed ("Translating to " ++ lang ++ "...")]) ++
                  [Ev.updatedFile (langPath lang) ("Update " ++ lang ++ " translation")
                    (translate_locale api source lang st).1
                    (api.getSha (langPath lang)) BRANCH_NAME]) hC hU
              refine ⟨st2, evs2, ?_, ?_, ?_, ?_⟩
              · simp only [publishLoop, hcc, huu]
                exact hok
              · intro p
                rw [hcnt p]
                simp only [List.filter_append, List.length_append, List.map_cons,
                  List.count_cons]
                by_cases hp : langPath lang = p
                · subst hp
                  simp [isUpdFor]
                  omega
                · have hp2 : (langPath lang == p) = false := by
                    simp [hp]
                  simp [isUpdFor, hp2, hp]
              · rw [hcrt]
                simp [isCreateEv]
              · rw [hpl]
                simp [isPullEv]

theorem push_ok_unfold (api : Api) (target_langs : List String) (sha : String)
    (source : List (String × String)) (h1 : api.mainBranch = .ok sha)
    (h2 : api.catalog = .ok source) :
    push_translations api target_langs
      = match publishLoop api source target_langs initState (branchEvents api) with
        | .error a => .error a
        | .ok (st, evs2) => .ok (send_translation_email api st (prEvents api evs2)) := by
  unfold push_translations
  rw [h1, h2]

theorem push_abort_main (api : Api) (target_langs : List String) (e : String)
    (h1 : api.mainBranch = .error e) :
    push_translations api target_langs = .error ⟨e, initState, []⟩ := by
  unfold push_translations
  rw [h1]

theorem push_abort_catalog (api : Api) (target_langs : List String) (sha : String)
    (e : String) (h1 : api.mainBranch = .ok sha) (h2 : api.catalog = .error e) :
    push_translations api target_langs = .error ⟨e, initState, branchEvents api⟩ := by
  unfold push_translations
  rw [h1, h2]

theorem send_translation_email_st (api : Api) (st : TState) (evs : List Ev) :
    (send_translation_email api st evs).st = st := by
  unfold send_translation_email
  cases api.smtp <;> rfl

theorem send_translation_email_csv (api : Api) (st : TState) (evs : List Ev) :
    (send_translation_email api st evs).csvFile
      = some (write_csv_log st.translation_log) := by
  unfold send_translation_email
  cases api.smtp <;> rfl

theorem send_translation_email_events_error (api : Api) (st : TState) (evs : List Ev)
    (e : String) (h : api.smtp = .error e) :
    (send_translation_email api st evs).events
      = evs ++ [Ev.wroteCsv (write_csv_log st.translation_log),
          Ev.printed ("❌ Email failed: " ++ e)] := by
  unfold send_translation_email
  rw [h]

/-- Claim C1: for every catalog and target language, translate_locale
returns a mapping with exactly the catalog keys in catalog order, appends
to that language exactly one log entry per catalog key in catalog order
while leaving every other language unchanged, and hence after a
successful run over pairwise distinct languages each catalog key appears
exactly once in each listed language's entry sequence. -/
theorem claim_C1 :
    (∀ (api : Api) (source : List (String × String)) (lang : String) (st : TState),
      (translate_locale api source lang st).1.map Prod.fst = source.map Prod.fst) ∧
    (∀ (api : Api) (source : List (String × String)) (lang : String) (st : TState),
      logGet (translate_locale api source lang st).2.translation_log lang
          = logGet st.translation_log lang ++ expectedEntries api lang source 0 ∧
        (expectedEntries api lang source 0).map Entry.key = source.map Prod.fst) ∧
    (∀ (api : Api) (source : List (String × String)) (lang l : String) (st : TState),
      ¬ l = lang →
      logGet (translate_locale api source lang st).2.translation_log l
        = logGet st.translation_log l) ∧
    (∀ (api : Api) (target_langs : List String) (sha : String)
        (source : List (String × String)),
      api.mainBranch = Except.ok sha →
      api.catalog = Except.ok source →
      exceptOk (push_translations api target_langs) = true →
      (source.map Prod.fst).Nodup →
      target_langs.Nodup →
      ∀ lang ∈ target_langs, ∀ k ∈ source.map Prod.fst,
        ((logGet (resultState (push_translations api target_langs)).translation_log
          lang).map Entry.key).count k = 1) := by
  refine ⟨?_, ?_, ?_, ?_⟩
  · intro api source lang st
    rw [translate_locale, translateLoop_fst]
    simp [transOf]
  · intro api source lang st
    exact ⟨translateLoop_log_same api lang source 0 st,
      expectedEntries_keys api lang source 0⟩
  · intro api source lang l st h
    exact translateLoop_log_other api lang l source h 0 st
  · intro api langs sha source h1 h2 hok hnd hlnd lang hlang k hk
    rw [push_ok_unfold api langs sha source h1 h2] at hok ⊢
    cases hp : publishLoop api source langs initState (branchEvents api) with
    | error a => rw [hp] at hok; simp [exceptOk] at hok
    | ok pr =>
        obtain ⟨st, evs2⟩ := pr
        simp only [resultState, send_translation_email_st]
        have hst : st = runLangs api source langs initState :=
          publishLoop_state api source langs _ _ _ _ hp
        rw [hst, runLangs_log_mem api source langs hlnd lang hlang initState]
        have hinit : logGet initState.translation_log lang = [] := rfl
        rw [hinit, List.nil_append, expectedEntries_keys]
        exact List.count_eq_one_of_mem hnd hk

/-- Witness for claim C1 on a concrete successful run. -/
theorem claim_C1_witness :
    ((logGet (resultState (push_translations okApi ["es", "fr"])).translation_log
      "es").map Entry.key).count "greeting" = 1 :=
  claim_C1.2.2.2 okApi ["es", "fr"] "mainsha" demoCatalog rfl rfl (by decide)
    (by decide) (by decide) "es" (by decide) "greeting" (by decide)

/-- Claim C2: translate_text adds exactly the token cost reported by the
completion response to the counter, the counter over a translate_locale
call grows by the sum of the reported per-call costs, it starts at zero,
it never decreases, and after a successful run it equals the sum of all
per-call costs over all languages. -/
theorem claim_C2 :
    (∀ (api : Api) (text target_lang : String) (st : TState),
      (translate_text api text target_lang st).2.total_tokens_used
        = st.total_tokens_used + (api.complete (build_prompt text target_lang)).2) ∧
    (∀ (api : Api) (source : List (String × String)) (target_lang : String)
        (st : TState),
      (translate_locale api source target_lang st).2.total_tokens_used
        = st.total_tokens_used + callCosts api target_lang source) ∧
    initState.total_tokens_used = 0 ∧
    (∀ (api : Api) (text target_lang : String) (st : TState),
      st.total_tokens_used ≤ (translate_text api text target_lang st).2.total_tokens_used) ∧
    (∀ (api : Api) (target_langs : List String) (sha : String)
        (source : List (String × String)),
      api.mainBranch = Except.ok sha →
      api.catalog = Except.ok source →
      exceptOk (push_translations api target_langs) = true →
      (resultState (push_translations api target_langs)).total_tokens_used
        = (target_langs.map (fun l => callCosts api l source)).sum) := by
  refine ⟨?_, ?_, rfl, ?_, ?_⟩
  · intro api text target_lang st
    exact translate_text_tokens api text target_lang st
  · intro api source target_lang st
    exact translateLoop_tokens api target_lang source 0 st
  · intro api text target_lang st
    rw [translate_text_tokens]
    exact Nat.le_add_right _ _
  · intro api langs sha source h1 h2 hok
    rw [push_ok_unfold api langs sha source h1 h2] at hok ⊢
    cases hp : publishLoop api source langs initState (branchEvents api) with
    | error a => rw [hp] at hok; simp [exceptOk] at hok
    | ok pr =>
        obtain ⟨st, evs2⟩ := pr
        simp only [resultState, send_translation_email_st]
        have hst : st = runLangs api source langs initState :=
          publishLoop_state api source langs _ _ _ _ hp
        rw [hst, runLangs_tokens]
        simp [initState]

/-- Witness for claim C2 on a concrete successful run. -/
theorem claim_C2_witness :
    (resultState (push_translations okApi ["es", "fr"])).total_tokens_used
      = (["es", "fr"].map (fun l => callCosts okApi l demoCatalog)).sum :=
  claim_C2.2.2.2.2 okApi ["es", "fr"] "mainsha" demoCatalog rfl rfl (by decide)

/-- Claim C6: when translate_locale starts a language, the entry at
position i of the sequence it builds carries as fourth component the sum
over the entries up to position i of
(word count of original + word count of translated). -/
theorem claim_C6 (api : Api) (source : List (String × String))
    (target_lang : String) (st : TState)
    (h0 : logGet st.translation_log target_lang = []) :
    ∀ (i : Nat)
      (h : i < (logGet (translate_locale api source target_lang st).2.translation_log
        target_lang).length),
      ((logGet (translate_locale api source target_lang st).2.translation_log
        target_lang).get ⟨i, h⟩).cumTokens
        = (((logGet (translate_locale api source target_lang st).2.translation_log
            target_lang).take (i + 1)).map
            (fun e => wordCount e.original + wordCount e.translated)).sum := by
  have hlog : logGet (translate_locale api source target_lang st).2.translation_log
      target_lang = expectedEntries api target_lang source 0 := by
    rw [translate_locale, translateLoop_log_same, h0, List.nil_append]
  rw [hlog]
  intro i h
  have hc := expectedEntries_cum api target_lang source 0 i h
  simpa using hc

/-- Witness for claim C6 at a concrete catalog, language and position. -/
theorem claim_C6_witness :
    ((logGet (translate_locale okApi demoCatalog "es" initState).2.translation_log
      "es").get ⟨1, by decide⟩).cumTokens
      = (((logGet (translate_locale okApi demoCatalog "es" initState).2.translation_log
          "es").take 2).map
          (fun e => wordCount e.original + wordCount e.translated)).sum :=
  claim_C6 okApi demoCatalog "es" initState rfl 1 (by decide)

/-- Claim C3: when the SMTP session raises, send_translation_email
still writes the CSV report before the send attempt, prints the failure
line, and returns normally; a run whose repository steps succeed
terminates normally and keeps its report file whatever the mail
outcome. -/
theorem claim_C3 :
    (∀ (api : Api) (st : TState) (evs : List Ev) (e : String),
      api.smtp = Except.error e →
      (send_translation_email api st evs).csvFile
          = some (write_csv_log st.translation_log) ∧
      (send_translation_email api st evs).events
          = evs ++ [Ev.wroteCsv (write_csv_log st.translation_log),
              Ev.printed ("❌ Email failed: " ++ e)]) ∧
    (∀ (api : Api) (target_langs : List String) (sha : String)
        (source : List (String × String)),
      api.mainBranch = Except.ok sha →
      api.catalog = Except.ok source →
      (∀ p, exceptOk (api.updateFile p) = true) →
      exceptOk (push_translations api target_langs) = true ∧
      resultCsv (push_translations api target_langs)
        = some (write_csv_log
            (resultState (push_translations api target_langs)).translation_log)) := by
  constructor
  · intro api st evs e h
    exact ⟨send_translation_email_csv api st evs,
      send_translation_email_events_error api st evs e h⟩
  · intro api langs sha source h1 h2 hU
    obtain ⟨st2, evs2, hok, _⟩ :=
      publishLoop_ok_of_update api source langs initState (branchEvents api) hU
    rw [push_ok_unfold api langs sha source h1 h2, hok]
    simp [exceptOk, resultCsv, resultState, send_translation_email_st,
      send_translation_email_csv]

/-- Witness for claim C3: an authentication error in the mail transport
leaves the CSV written and the run successful. -/
theorem claim_C3_witness :
    (send_translation_email smtpFailApi initState []).csvFile
        = some (write_csv_log initState.translation_log) ∧
    exceptOk (push_translations smtpFailApi ["es", "fr"]) = true :=
  ⟨(claim_C3.1 smtpFailApi initState [] "auth error" rfl).1,
   (claim_C3.2 smtpFailApi ["es", "fr"] "mainsha" demoCatalog rfl rfl
      (fun _ => rfl)).1⟩

/-- Claim C7: the CSV report starts with the fixed header row even for
the empty log, carries one further row per entry in log iteration order,
and for a successful run over L languages and an N-key catalog has
exactly 1 + N×L rows. -/
theorem claim_C7 :
    write_csv_log [] = [["Language", "Key", "Original Text", "Translated Text"]] ∧
    (∀ (log : List (String × List Entry)),
      write_csv_log log
        = ["Language", "Key", "Original Text", "Translated Text"] ::
            (log.map (fun p => p.2.map (csvRow p.1))).flatten) ∧
    (∀ (log : List (String × List Entry)),
      (write_csv_log log).length = 1 + totalEntries log) ∧
    (∀ (api : Api) (target_langs : List String) (sha : String)
        (source : List (String × String)),
      api.mainBranch = Except.ok sha →
      api.catalog = Except.ok source →
      exceptOk (push_translations api target_langs) = true →
      resultCsv (push_translations api target_langs)
          = some (write_csv_log
              (resultState (push_translations api target_langs)).translation_log) ∧
      (write_csv_log
          (resultState (push_translations api target_langs)).translation_log).length
          = 1 + target_langs.length * source.length) := by
  have hlen : ∀ (log : List (String × List Entry)),
      (write_csv_log log).length = 1 + totalEntries log := by
    intro log
    simp only [write_csv_log, totalEntries, List.length_cons, List.length_flatten,
      List.map_map]
    have : ∀ (p : String × List Entry),
        (List.length ∘ fun p => p.2.map (csvRow p.1)) p = p.2.length := by
      intro p; simp
    rw [List.map_congr_left (fun p _ => this p)]
    omega
  refine ⟨rfl, fun log => rfl, hlen, ?_⟩
  intro api langs sha source h1 h2 hok
  rw [push_ok_unfold api langs sha source h1 h2] at hok ⊢
  cases hp : publishLoop api source langs initState (branchEvents api) with
  | error a => rw [hp] at hok; simp [exceptOk] at hok
  | ok pr =>
      obtain ⟨st, evs2⟩ := pr
      simp only [resultCsv, resultState, send_translation_email_st,
        send_translation_email_csv]
      refine ⟨trivial, ?_⟩
      rw [hlen]
      have hst : st = runLangs api source langs initState :=
        publishLoop_state api source langs _ _ _ _ hp
      rw [hst, runLangs_totalEntries]
      simp [initState, totalEntries]

/-- Witness for claim C7 on a concrete successful run: 2 keys times 2
languages plus the header row. -/
theorem claim_C7_witness :
    (write_csv_log
        (resultState (push_translations okApi ["es", "fr"])).translation_log).length
      = 1 + 2 * 2 :=
  (claim_C7.2.2.2 okApi ["es", "fr"] "mainsha" demoCatalog rfl rfl (by decide)).2

/-- Claim C8: the report shows total cost = counter × 0.00001 (the fixed
rate, exactly 1/100000), every language section shows its final
cumulative token count (fourth component of the last entry, 0 when the
sequence is empty) times the same rate, and that count for a freshly
translated language is the word-count proxy summed over the catalog. -/
theorem claim_C8 :
    TOKEN_RATE = (1 : ℚ) / 100000 ∧
    (∀ (m : String) (st : TState),
      (buildReport m st).totalTokens = st.total_tokens_used ∧
      (buildReport m st).totalCost = (st.total_tokens_used : ℚ) * ((1 : ℚ) / 100000)) ∧
    (∀ (m : String) (st : TState),
      (∀ s ∈ (buildReport m st).sections, s.cost = (s.tokens : ℚ) * TOKEN_RATE) ∧
      (buildReport m st).sections.map (fun s => (s.lang, s.tokens))
        = st.translation_log.map (fun p => (p.1, lang_total_tokens p.2))) ∧
    (∀ (api : Api) (source : List (String × String)) (target_lang : String)
        (st : TState),
      logGet st.translation_log target_lang = [] → ¬ source = [] →
      lang_total_tokens
          (logGet (translate_locale api source target_lang st).2.translation_log
            target_lang)
        = wcSum api target_lang source) ∧
    lang_total_tokens [] = 0 := by
  have hrate : TOKEN_RATE = (1 : ℚ) / 100000 := by
    norm_num [TOKEN_RATE]
  refine ⟨hrate, ?_, ?_, ?_, rfl⟩
  · intro m st
    exact ⟨rfl, by rw [← hrate]; rfl⟩
  · intro m st
    constructor
    · intro s hs
      simp only [buildReport, List.mem_map] at hs
      obtain ⟨p, _, hp⟩ := hs
      rw [← hp]
    · simp [buildReport]
  · intro api source target_lang st h0 hne
    rw [translate_locale, translateLoop_log_same, h0, List.nil_append]
    have := lang_total_tokens_expected api target_lang source 0 hne
    rw [this]
    omega

/-- Witness for claim C8: the per-language header count for a concrete
fresh run equals the word-count proxy total of the catalog. -/
theorem claim_C8_witness :
    lang_total_tokens
        (logGet (translate_locale okApi demoCatalog "es" initState).2.translation_log
          "es")
      = wcSum okApi "es" demoCatalog :=
  claim_C8.2.2.2.1 okApi demoCatalog "es" initState rfl (by decide)

theorem send_translation_email_events_ok (api : Api) (st : TState) (evs : List Ev)
    (u : Unit) (h : api.smtp = .ok u) :
    (send_translation_email api st evs).events
      = evs ++ [Ev.wroteCsv (write_csv_log st.translation_log),
          Ev.printed "✅ Email sent"] := by
  unfold send_translation_email
  rw [h]

theorem publishLoop_pull_count (api : Api) (source : List (String × String)) :
    ∀ (langs : List String) (st : TState) (evs : List Ev) (st2 : TState) (evs2 : List Ev),
      publishLoop api source langs st evs = .ok (st2, evs2) →
      (evs2.filter isPullEv).length = (evs.filter isPullEv).length := by
  intro langs
  induction langs with
  | nil =>
      intro st evs st2 evs2 h
      simp [publishLoop] at h
      rw [← h.2]
  | cons lang rest ih =>
      intro st evs st2 evs2 h
      simp only [publishLoop] at h
      cases hc : api.createFile (langPath lang) with
      | ok v =>
          rw [hc] at h
          rw [ih _ _ _ _ h]
          simp [isPullEv]
      | error e1 =>
          rw [hc] at h
          cases hu : api.updateFile (langPath lang) with
          | ok v =>
              rw [hu] at h
              rw [ih _ _ _ _ h]
              simp [isPullEv]
          | error e2 =>
              rw [hu] at h
              simp at h

theorem push_ok_events (api : Api) (target_langs : List String) (sha : String)
    (source : List (String × String)) (st2 : TState) (evs2 : List Ev)
    (h1 : api.mainBranch = .ok sha) (h2 : api.catalog = .ok source)
    (hp : publishLoop api source target_langs initState (branchEvents api)
      = .ok (st2, evs2)) :
    ∃ s, resultEvents (push_translations api target_langs)
      = prEvents api evs2 ++ [Ev.wroteCsv (write_csv_log st2.translation_log),
          Ev.printed s] := by
  rw [push_ok_unfold api target_langs sha source h1 h2, hp]
  simp only [resultEvents]
  cases hs : api.smtp with
  | ok u =>
      exact ⟨"✅ Email sent", send_translation_email_events_ok api st2 _ u hs⟩
  | error e =>
      exact ⟨"❌ Email failed: " ++ e,
        send_translation_email_events_error api st2 _ e hs⟩

theorem branchEvents_no_upd (api : Api) (p : String) :
    ((branchEvents api).filter (isUpdFor p)).length = 0 := by
  unfold branchEvents
  cases api.createRef <;> rfl

theorem branchEvents_no_create (api : Api) :
    ((branchEvents api).filter isCreateEv).length = 0 := by
  unfold branchEvents
  cases api.createRef <;> rfl

theorem branchEvents_no_pull (api : Api) :
    ((branchEvents api).filter isPullEv).length = 0 := by
  unfold branchEvents
  cases api.createRef <;> rfl

/-- Counterexample to claim C4 as stated: with an oracle on which file
creation fails with a non-already-exists error and the fallback update
also raises, the run aborts with the update error after the first
language, so an error in the publish step for one file does prevent the
remaining languages (fr has no entries while es does). -/
theorem claim_C4_counterexample :
    abortMsg (push_translations updFailApi ["es", "fr"]) = some "update failed" ∧
    logGet (resultState (push_translations updFailApi ["es", "fr"])).translation_log
      "fr" = [] ∧
    ¬ logGet (resultState (push_translations updFailApi ["es", "fr"])).translation_log
      "es" = [] := by
  refine ⟨by decide, by decide, by decide⟩

/-- Claim C4 (amended): on any creation error — not only
file-already-exists — the publisher falls back to updating the file
after fetching its revision marker, and a creation error alone never
blocks the remaining languages, provided each fallback update succeeds;
an error raised by the fallback update itself is uncaught and aborts
the run before the remaining languages. -/
theorem claim_C4_amended :
    (∀ (api : Api) (source : List (String × String)) (target_langs : List String)
        (st : TState) (evs : List Ev),
      (∀ p, exceptOk (api.updateFile p) = true) →
      ∃ st2 evs2, publishLoop api source target_langs st evs = .ok (st2, evs2) ∧
        ∀ lang ∈ target_langs,
          (exceptOk (api.createFile (langPath lang)) = true →
            Ev.createdFile (langPath lang) ("Add " ++ lang ++ " translation")
              (transOf api lang source) BRANCH_NAME ∈ evs2) ∧
          (exceptOk (api.createFile (langPath lang)) = false →
            Ev.updatedFile (langPath lang) ("Update " ++ lang ++ " translation")
              (transOf api lang source) (api.getSha (langPath lang)) BRANCH_NAME
              ∈ evs2)) ∧
    (∀ (api : Api) (source : List (String × String)) (lang : String)
        (rest : List String) (st : TState) (evs : List Ev) (e1 e2 : String),
      api.createFile (langPath lang) = .error e1 →
      api.updateFile (langPath lang) = .error e2 →
      publishLoop api source (lang :: rest) st evs
        = .error ⟨e2, (translate_locale api source lang st).2,
            evs ++ [Ev.printed ("Translating to " ++ lang ++ "...")]⟩) := by
  constructor
  · intro api source langs st evs hU
    exact publishLoop_ok_of_update api source langs st evs hU
  · intro api source lang rest st evs e1 e2 hc hu
    simp only [publishLoop, hc, hu]

/-- Witness for the amended claim C4 at a concrete oracle where creation
fails with a permission-style error and the fallback update raises. -/
theorem claim_C4_amended_witness :
    publishLoop updFailApi demoCatalog ("es" :: ["fr"]) initState []
      = .error ⟨"update failed", (translate_locale updFailApi demoCatalog "es" initState).2,
          [] ++ [Ev.printed ("Translating to " ++ "es" ++ "...")]⟩ :=
  claim_C4_amended.2 updFailApi demoCatalog "es" ["fr"] initState []
    "403 forbidden" "update failed" rfl rfl

/-- Claim C5: rerunning the publisher against an existing working
branch, existing output files and an open pull request updates each
output file exactly once (creating none), creates no pull request, and
still writes the report; and the pull request with the fixed title and
body is created exactly when the open-PR query returns zero. -/
theorem claim_C5 :
    (∀ (api : Api) (target_langs : List String) (sha : String)
        (source : List (String × String)),
      api.mainBranch = Except.ok sha →
      api.catalog = Except.ok source →
      (∀ p, exceptOk (api.createFile p) = false) →
      (∀ p, exceptOk (api.updateFile p) = true) →
      ¬ api.openPRTotalCount = 0 →
      target_langs.Nodup →
      exceptOk (push_translations api target_langs) = true ∧
      (∀ lang ∈ target_langs,
        ((resultEvents (push_translations api target_langs)).filter
          (isUpdFor (langPath lang))).length = 1) ∧
      ((resultEvents (push_translations api target_langs)).filter isCreateEv).length
          = 0 ∧
      ((resultEvents (push_translations api target_langs)).filter isPullEv).length
          = 0 ∧
      resultCsv (push_translations api target_langs)
        = some (write_csv_log
            (resultState (push_translations api target_langs)).translation_log)) ∧
    (∀ (api : Api) (target_langs : List String) (sha : String)
        (source : List (String × String)) (st2 : TState) (evs2 : List Ev),
      api.mainBranch = Except.ok sha →
      api.catalog = Except.ok source →
      publishLoop api source target_langs initState (branchEvents api)
        = .ok (st2, evs2) →
      (api.openPRTotalCount = 0 →
        Ev.createdPull "Automated translations via RingStone MVP Demo"
          "This PR was auto-generated using LLM-based translation."
          BRANCH_NAME "main" ∈ resultEvents (push_translations api target_langs)) ∧
      (¬ api.openPRTotalCount = 0 →
        ∀ (t b hd bs : String),
          Ev.createdPull t b hd bs ∉ resultEvents (push_translations api target_langs))) := by
  constructor
  · intro api langs sha source h1 h2 hC hU hPR hnd
    obtain ⟨st2, evs2, hok, hcnt, hcrt, hpl⟩ :=
      publishLoop_upd_count api source langs initState (branchEvents api) hC hU
    obtain ⟨s, hev⟩ := push_ok_events api langs sha source st2 evs2 h1 h2 hok
    have hpr : prEvents api evs2
        = evs2 ++ [Ev.printed "⚠️ PR already exists. Skipping PR creation."] := by
      unfold prEvents
      rw [if_neg hPR]
    refine ⟨?_, ?_, ?_, ?_, ?_⟩
    · rw [push_ok_unfold api langs sha source h1 h2, hok]
      rfl
    · intro lang hlang
      rw [hev, hpr]
      simp only [List.filter_append, List.length_append]
      have h3 : ([Ev.printed "⚠️ PR already exists. Skipping PR creation."].filter
          (isUpdFor (langPath lang))).length = 0 := rfl
      have h4 : ([Ev.wroteCsv (write_csv_log st2.translation_log),
          Ev.printed s].filter (isUpdFor (langPath lang))).length = 0 := rfl
      rw [h3, h4, hcnt (langPath lang), branchEvents_no_upd]
      have h5 : (langs.map langPath).Nodup := hnd.map langPath_injective
      have h6 : langPath lang ∈ langs.map langPath := List.mem_map_of_mem langPath hlang
      rw [List.count_eq_one_of_mem h5 h6]
    · rw [hev, hpr]
      simp only [List.filter_append, List.length_append]
      have h3 : ([Ev.printed "⚠️ PR already exists. Skipping PR creation."].filter
          isCreateEv).length = 0 := rfl
      have h4 : ([Ev.wroteCsv (write_csv_log st2.translation_log),
          Ev.printed s].filter isCreateEv).length = 0 := rfl
      rw [h3, h4, hcrt, branchEvents_no_create]
    · rw [hev, hpr]
      simp only [List.filter_append, List.length_append]
      have h3 : ([Ev.printed "⚠️ PR already exists. Skipping PR creation."].filter
          isPullEv).length = 0 := rfl
      have h4 : ([Ev.wroteCsv (write_csv_log st2.translation_log),
          Ev.printed s].filter isPullEv).length = 0 := rfl
      rw [h3, h4, hpl, branchEvents_no_pull]
    · rw [push_ok_unfold api langs sha source h1 h2, hok]
      simp only [resultCsv, resultState, send_translation_email_st,
        send_translation_email_csv]
  · intro api langs sha source st2 evs2 h1 h2 hp
    obtain ⟨s, hev⟩ := push_ok_events api langs sha source st2 evs2 h1 h2 hp
    constructor
    · intro h0
      rw [hev]
      unfold prEvents
      rw [if_pos h0]
      simp
    · intro h0 t b hd bs hmem
      have hplcnt := publishLoop_pull_count api source langs _ _ _ _ hp
      have hzero : (evs2.filter isPullEv).length = 0 :=
        hplcnt.trans (branchEvents_no_pull api)
      rw [hev] at hmem
      unfold prEvents at hmem
      rw [if_neg h0] at hmem
      simp at hmem
      have hmemf : Ev.createdPull t b hd bs ∈ evs2.filter isPullEv :=
        List.mem_filter.mpr ⟨hmem, rfl⟩
      rw [List.length_eq_zero.mp hzero] at hmemf
      cases hmemf

/-- Witness for claim C5 on a concrete rerun oracle. -/
theorem claim_C5_witness :
    ((resultEvents (push_translations rerunApi ["es", "fr"])).filter
        (isUpdFor (langPath "es"))).length = 1 ∧
    ((resultEvents (push_translations rerunApi ["es", "fr"])).filter
        isPullEv).length = 0 :=
  ⟨(claim_C5.1 rerunApi ["es", "fr"] "mainsha" demoCatalog rfl rfl (fun _ => rfl)
      (fun _ => rfl) (by decide) (by decide)).2.1 "es" (by decide),
   (claim_C5.1 rerunApi ["es", "fr"] "mainsha" demoCatalog rfl rfl (fun _ => rfl)
      (fun _ => rfl) (by decide) (by decide)).2.2.2.1⟩

/-- Counterexample to claim C9 as stated: with an oracle on which branch
creation raises a permission error (not branch-already-exists), the run
is not aborted — the bare except catches it, prints the already-exists
line, and the run completes. -/
theorem claim_C9_counterexample :
    permApi.createRef = Except.error "permission denied" ∧
    exceptOk (push_translations permApi ["es"]) = true ∧
    (resultEvents (push_translations permApi ["es"])).head?
      = some (Ev.printed "Branch translations-auto already exists") := by
  refine ⟨rfl, by decide, by decide⟩

/-- Claim C9 (amended): an error while resolving the repository and main
branch, or while loading or parsing the catalog, is uncaught and aborts
the whole run; any error during branch creation — not only
branch-already-exists — is caught by the bare except, the already-exists
line is printed, and the run continues on the existing branch. -/
theorem claim_C9_amended :
    (∀ (api : Api) (target_langs : List String) (e : String),
      api.mainBranch = Except.error e →
      push_translations api target_langs = .error ⟨e, initState, []⟩) ∧
    (∀ (api : Api) (target_langs : List String) (sha e : String),
      api.mainBranch = Except.ok sha →
      api.catalog = Except.error e →
      push_translations api target_langs = .error ⟨e, initState, branchEvents api⟩) ∧
    (∀ (api : Api) (e : String),
      api.createRef = Except.error e →
      branchEvents api = [Ev.printed ("Branch " ++ BRANCH_NAME ++ " already exists")]) ∧
    (∀ (api : Api) (target_langs : List String) (sha : String)
        (source : List (String × String)) (e : String),
      api.mainBranch = Except.ok sha →
      api.catalog = Except.ok source →
      api.createRef = Except.error e →
      (∀ p, exceptOk (api.updateFile p) = true) →
      exceptOk (push_translations api target_langs) = true) := by
  refine ⟨?_, ?_, ?_, ?_⟩
  · intro api langs e h
    exact push_abort_main api langs e h
  · intro api langs sha e h1 h2
    exact push_abort_catalog api langs sha e h1 h2
  · intro api e h
    unfold branchEvents
    rw [h]
  · intro api langs sha source e h1 h2 _h3 hU
    obtain ⟨st2, evs2, hok, _⟩ :=
      publishLoop_ok_of_update api source langs initState (branchEvents api) hU
    rw [push_ok_unfold api langs sha source h1 h2, hok]
    rfl

/-- Witness for the amended claim C9: concrete aborts for repository and
catalog failures, and a completed run despite a branch-creation error. -/
theorem claim_C9_amended_witness :
    push_translations mainFailApi ["es"]
        = Except.error ⟨"bad credentials", initState, []⟩ ∧
    push_translations catFailApi ["es"]
        = Except.error ⟨"404 locales/en.json", initState, branchEvents catFailApi⟩ ∧
    exceptOk (push_translations permApi ["es"]) = true :=
  ⟨claim_C9_amended.1 mainFailApi ["es"] "bad credentials" rfl,
   claim_C9_amended.2.1 catFailApi ["es"] "mainsha" "404 locales/en.json" rfl rfl,
   claim_C9_amended.2.2.2 permApi ["es"] "mainsha" demoCatalog "permission denied"
     rfl rfl rfl (fun _ => rfl)⟩

/-- Claim C10: the target-language list is a comma split that can contain
duplicates; running the per-language loop twice for the same language
doubles that language's entry sequence — each catalog key then appears
twice — and the second half restarts the running total from zero (it
equals a fresh batch rather than continuing the cumulative count). -/
theorem claim_C10 :
    TARGET_LANGS_of "es,es" = ["es", "es"] ∧
    (∀ (api : Api) (source : List (String × String)) (target_lang : String)
        (st : TState),
      logGet st.translation_log target_lang = [] →
      logGet (runLangs api source [target_lang, target_lang] st).translation_log
          target_lang
        = expectedEntries api target_lang source 0
            ++ expectedEntries api target_lang source 0) ∧
    (∀ (api : Api) (source : List (String × String)) (target_lang : String)
        (st : TState),
      logGet st.translation_log target_lang = [] →
      (source.map Prod.fst).Nodup →
      ∀ k ∈ source.map Prod.fst,
        ((logGet (runLangs api source [target_lang, target_lang] st).translation_log
          target_lang).map Entry.key).count k = 2) ∧
    (∀ (api : Api) (source : List (String × String)) (target_lang : String)
        (st : TState),
      logGet st.translation_log target_lang = [] →
      (logGet (runLangs api source [target_lang, target_lang] st).translation_log
          target_lang).drop source.length
        = expectedEntries api target_lang source 0) := by
  have hdouble : ∀ (api : Api) (source : List (String × String))
      (target_lang : String) (st : TState),
      logGet st.translation_log target_lang = [] →
      logGet (runLangs api source [target_lang, target_lang] st).translation_log
          target_lang
        = expectedEntries api target_lang source 0
            ++ expectedEntries api target_lang source 0 := by
    intro api source target_lang st h0
    simp only [runLangs, translate_locale]
    rw [translateLoop_log_same, translateLoop_log_same, h0]
    simp
  refine ⟨by decide, hdouble, ?_, ?_⟩
  · intro api source target_lang st h0 hnd k hk
    rw [hdouble api source target_lang st h0]
    rw [List.map_append, List.count_append, expectedEntries_keys,
      List.count_eq_one_of_mem hnd hk]
  · intro api source target_lang st h0
    rw [hdouble api source target_lang st h0]
    have hd := List.drop_left (expectedEntries api target_lang source 0)
      (expectedEntries api target_lang source 0)
    rw [expectedEntries_length] at hd
    exact hd

/-- Witness for claim C10: with the duplicated language list from the
comma split, the key appears twice in the sequence. -/
theorem claim_C10_witness :
    ((logGet (runLangs okApi demoCatalog ["es", "es"] initState).translation_log
      "es").map Entry.key).count "greeting" = 2 :=
  claim_C10.2.2.1 okApi demoCatalog "es" initState rfl (by decide) "greeting"
    (by decide)

end Ringstone
